import Mathlib

set_option maxRecDepth 8000

/-!
Shallow embedding of the Quake BSP importer (`io_mesh_bsp/bsp_importer.py`)
and proofs about its decoding and reconstruction pipeline.

Conventions of the embedding:
* the input file is a `List Nat` of byte values; `struct.unpack` failures
  (too few bytes for the requested format) and other Python exceptions that
  abort the whole import are modelled by `Option`, `none` meaning the
  importer raises;
* Python floats are modelled by `ℚ` (the importer only moves them around and
  performs exact-by-construction arithmetic on the file's decoded values);
* host-application objects (`bpy`, `bmesh`) are out of scope: meshes are
  represented by explicit vertex/loop/uv data, images by flat pixel lists.
-/

namespace BSPImporter

/-! ## Binary cursor: primitive decoding over a byte buffer -/

/-- Little-endian unsigned 32-bit decode at byte offset `ofs` of a buffer. -/
def u32 (bs : List Nat) (ofs : Nat) : Nat :=
  bs.getD ofs 0 + 256 * (bs.getD (ofs + 1) 0 + 256 * (bs.getD (ofs + 2) 0 + 256 * bs.getD (ofs + 3) 0))

/-- Reinterpret an unsigned 32-bit value as a signed one (two's complement),
as `struct.unpack` does for format character `i`. -/
def i32ofU32 (n : Nat) : Int :=
  if n < 2 ^ 31 then (n : Int) else (n : Int) - 2 ^ 32

/-- Signed little-endian 32-bit decode of (the first four bytes of) a buffer. -/
def i32FromBytes (bs : List Nat) : Int :=
  i32ofU32 (u32 bs 0)

/-- `file.seek(ofs); file.read(n)` followed by an exact-size `struct.unpack`:
yields the `n` bytes starting at `ofs`, or `none` when fewer than `n` bytes
are available there (in which case `struct.unpack` raises). -/
def readBytes (file : List Nat) (ofs n : Nat) : Option (List Nat) :=
  if ofs + n ≤ file.length then some ((file.drop ofs).take n) else none

/-- As `readBytes` but for a possibly negative (signed) file offset:
`file.seek` raises on a negative offset. -/
def readBytesI (file : List Nat) (ofs : Int) (n : Nat) : Option (List Nat) :=
  if ofs < 0 then none else readBytes file ofs.toNat n

/-! ## Struct formats (field byte widths) and their `calcsize` -/

/-- `struct.calcsize` of a little-endian format given as field byte widths. -/
def calcsize (fmt : List Nat) : Nat := fmt.sum

/-- Format `<31I`: the BSP header, 31 unsigned 32-bit fields. -/
def fmt_BSPHeader : List Nat := List.replicate 31 4

/-- Format `<9f7I`: a model record. -/
def fmt_BSPModel : List Nat := List.replicate 9 4 ++ List.replicate 7 4

/-- Format `<HHiHHBBBBi`: a classic face record (16-bit index fields). -/
def fmt_BSPFace : List Nat := [2, 2, 4, 2, 2, 1, 1, 1, 1, 4]

/-- Format `<IIiIIBBBBi`: a BSP2 face record (32-bit index fields). -/
def fmt_BSP2Face : List Nat := [4, 4, 4, 4, 4, 1, 1, 1, 1, 4]

/-- Format `<fff`: a vertex record. -/
def fmt_BSPVertex : List Nat := [4, 4, 4]

/-- Format `<HH`: a classic edge record (two 16-bit vertex indices). -/
def fmt_BSPEdge : List Nat := [2, 2]

/-- Format `<II`: a BSP2 edge record (two 32-bit vertex indices). -/
def fmt_BSP2Edge : List Nat := [4, 4]

/-- Format `<16s6I`: a miptex record (16-byte name, six 32-bit fields). -/
def fmt_BSPMipTex : List Nat := 16 :: List.replicate 6 4

/-! ## Header and lump record counts (`import_bsp`, lines 496-514) -/

/-- The decoded `BSPHeader` namedtuple: a version tag and 15 (offset, size)
lump descriptors, all unsigned 32-bit. -/
structure BSPHeaderRec where
  version : Nat
  entities_ofs : Nat
  entities_size : Nat
  planes_ofs : Nat
  planes_size : Nat
  miptex_ofs : Nat
  miptex_size : Nat
  verts_ofs : Nat
  verts_size : Nat
  visilist_ofs : Nat
  visilist_size : Nat
  nodes_ofs : Nat
  nodes_size : Nat
  texinfo_ofs : Nat
  texinfo_size : Nat
  faces_ofs : Nat
  faces_size : Nat
  lightmaps_ofs : Nat
  lightmaps_size : Nat
  clipnodes_ofs : Nat
  clipnodes_size : Nat
  leaves_ofs : Nat
  leaves_size : Nat
  lface_ofs : Nat
  lface_size : Nat
  edges_ofs : Nat
  edges_size : Nat
  ledges_ofs : Nat
  ledges_size : Nat
  models_ofs : Nat
  models_size : Nat
deriving DecidableEq

/-- Unpack the 124-byte header buffer (`BSPHeader._make(struct.unpack(...))`). -/
def parseHeader (hb : List Nat) : BSPHeaderRec :=
  ⟨u32 hb 0, u32 hb 4, u32 hb 8, u32 hb 12, u32 hb 16, u32 hb 20, u32 hb 24,
   u32 hb 28, u32 hb 32, u32 hb 36, u32 hb 40, u32 hb 44, u32 hb 48, u32 hb 52,
   u32 hb 56, u32 hb 60, u32 hb 64, u32 hb 68, u32 hb 72, u32 hb 76, u32 hb 80,
   u32 hb 84, u32 hb 88, u32 hb 92, u32 hb 96, u32 hb 100, u32 hb 104, u32 hb 108,
   u32 hb 112, u32 hb 116, u32 hb 120⟩

/-- The magic version value `844124994` (`'BSP2'` little-endian); line 505:
`bsp2 = (header.version == 844124994)`. -/
def detect_bsp2 (version : Nat) : Bool :=
  version == 844124994

/-- Face record size selected by the format variant (lines 509-514, 545-554). -/
def face_size (bsp2 : Bool) : Nat :=
  if bsp2 then calcsize fmt_BSP2Face else calcsize fmt_BSPFace

/-- Edge record size selected by the format variant (lines 509-514, 545-554). -/
def edge_size (bsp2 : Bool) : Nat :=
  if bsp2 then calcsize fmt_BSP2Edge else calcsize fmt_BSPEdge

/-- The four lump record counts the importer computes (lines 507-514). -/
structure LumpCounts where
  num_models : Nat
  num_verts : Nat
  num_faces : Nat
  num_edges : Nat
deriving DecidableEq

/-- Lines 507-514: `num_x = int(header.x_size / struct.calcsize(fmt))`.
Python's `int(a / b)` on these magnitudes (`a < 2^32`, `b ≤ 64`) equals
floor division `a // b`, i.e. `Nat` division: `a` is exact in float64 and
`a / b` can only round up across an integer boundary when `b > 2^23`. -/
def computeCounts (h : BSPHeaderRec) (bsp2 : Bool) : LumpCounts :=
  ⟨h.models_size / calcsize fmt_BSPModel,
   h.verts_size / calcsize fmt_BSPVertex,
   h.faces_size / face_size bsp2,
   h.edges_size / edge_size bsp2⟩

/-! ## Decoded record tables for geometry reconstruction

`import_bsp` unpacks fixed-size records with `unpack_from` on byte slices of
the lump buffers; the geometry layer below works on the resulting decoded
tables.  An out-of-range record index makes `unpack_from` raise (slice too
short), which `List.get?` models with `none`. -/

/-- A decoded position, `ℚ` standing for the file's 32-bit floats. -/
abbrev Vec3 : Type := ℚ × ℚ × ℚ

/-- The `BSPEdge` namedtuple: a pair of vertex indices. -/
structure BSPEdgeRec where
  vertex0 : Nat
  vertex1 : Nat
deriving DecidableEq

/-- The `BSPFace` namedtuple.  `ledge_id` is a signed 32-bit field
(format character `i`); the remaining fields are unsigned. -/
structure BSPFaceRec where
  plane_id : Nat
  size : Nat
  ledge_id : Int
  ledge_num : Nat
  texinfo_id : Nat
  lighttype : Nat
  lightlevel : Nat
  light0 : Nat
  light1 : Nat
  lightmap : Int
deriving DecidableEq

/-- The `BSPModel` namedtuple (9 floats, then 7 unsigned 32-bit fields). -/
structure BSPModelRec where
  bbox_min_x : ℚ
  bbox_min_y : ℚ
  bbox_min_z : ℚ
  bbox_max_x : ℚ
  bbox_max_y : ℚ
  bbox_max_z : ℚ
  origin_x : ℚ
  origin_y : ℚ
  origin_z : ℚ
  node_id0 : Nat
  node_id1 : Nat
  node_id2 : Nat
  node_id3 : Nat
  numleafs : Nat
  face_id : Nat
  face_num : Nat
deriving DecidableEq

/-- The `BSPTexInfo` namedtuple: two 4-component axis+offset vectors, a
texture index and an `animated` flag. -/
structure BSPTexInfoRec where
  s_x : ℚ
  s_y : ℚ
  s_z : ℚ
  s_dist : ℚ
  t_x : ℚ
  t_y : ℚ
  t_z : ℚ
  t_dist : ℚ
  texture_id : Nat
  animated : Nat
deriving DecidableEq

/-- One entry of the list returned by `load_textures` (lines 229-230):
`dict(name, width, height, image, mask, is_emissive, use_alpha)`. -/
structure TextureItem where
  name : String
  width : Nat
  height : Nat
  image : Option (List ℚ)
  mask : Option (List ℚ)
  is_emissive : Bool
  use_alpha : Bool
deriving DecidableEq

/-- The module-level tuple `ignored_texnames` (lines 96-105). -/
def ignored_texnames : List String :=
  ["clip", "trigger", "hint", "skip", "waterskip", "lavaskip", "slimeskip", "hintskip"]

/-! ## List helpers shared by the embedding -/

/-- Python sequence indexing `l[i]` for a signed index: a negative index
counts from the end; out of range raises (`none`). -/
def pyGet (l : List α) (i : Int) : Option α :=
  if 0 ≤ i then l.get? i.toNat
  else if (-i).toNat ≤ l.length then l.get? (l.length - (-i).toNat) else none

/-- Python `str.startswith`: a character-level test on the decoded text
(kernel-computable, unlike `String.startsWith`). -/
def pyStartsWith (s p : String) : Bool :=
  p.data.isPrefixOf s.data

/-- Python `str.split(sep)` on the character list, one-character separator,
empty parts kept. -/
def splitChar (sep : Char) : List Char → List (List Char)
  | [] => [[]]
  | a :: rest =>
    match splitChar sep rest with
    | [] => [[]]
    | g :: gs => if a == sep then [] :: g :: gs else (a :: g) :: gs

/-- Python `str.split(sep)` producing strings. -/
def pySplit (s : String) (sep : Char) : List String :=
  (splitChar sep s.data).map String.mk

/-- Map a fallible function over a list, failing if any element fails:
the shape of every decode-or-raise loop in the importer. -/
def mapOpt (f : α → Option β) : List α → Option (List β)
  | [] => some []
  | a :: as =>
    match f a, mapOpt f as with
    | some b, some bs => some (b :: bs)
    | _, _ => none

/-! ## Geometry reconstruction (`import_bsp`, lines 560-664) -/

/-- Lines 609-620: resolve one signed edge index against the packed edge
table.  The byte offset is `edge_index * edge_size` (negated first when the
index is negative), i.e. the record at the index's absolute value; a
non-negative index selects `vertex0`, a negative one selects `vertex1`. -/
def windingVertex (edge_table : List BSPEdgeRec) (edge_index : Int) : Option Nat :=
  if edge_index < 0 then (edge_table.get? (-edge_index).toNat).map (fun e => e.vertex1)
  else (edge_table.get? edge_index.toNat).map (fun e => e.vertex0)

/-- Lines 609-622: the loop `for i in range(0, face.ledge_num)` resolving
`edge_index_list[face.ledge_id + i]` to a vertex index; `i` is the next
loop counter, the second `Nat` the number of iterations left. -/
def walkFaceFrom (ledges : List Int) (edge_table : List BSPEdgeRec) (ledge_id : Int) :
    Nat → Nat → Option (List Nat)
  | _, 0 => some []
  | i, n + 1 =>
    match pyGet ledges (ledge_id + (i : Int)) with
    | none => none
    | some edge_index =>
      match windingVertex edge_table edge_index with
      | none => none
      | some vofs =>
        match walkFaceFrom ledges edge_table ledge_id (i + 1) n with
        | none => none
        | some rest => some (vofs :: rest)

/-- The vertex-index walk of one face's whole edge-list range. -/
def walkFace (ledges : List Int) (edge_table : List BSPEdgeRec) (ledge_id : Int)
    (ledge_num : Nat) : Option (List Nat) :=
  walkFaceFrom ledges edge_table ledge_id 0 ledge_num

/-- `usedVerts[vofs] = True` for every walked vertex (lines 587, 622, 662). -/
def markUsed (used : List Bool) : List Nat → List Bool
  | [] => used
  | v :: vs => markUsed (used.set v true) vs

/-- Modelled from the spec: polygon construction (the host mesh library's
`bm.faces.new`, called on the reversed vertex loop at line 637 and caught by
the bare `except` at line 638) is not part of this repository; per §4.4 of
the spec it fails on a degenerate or duplicate loop, i.e. on fewer than
three vertices, a repeated vertex in the loop, or a loop whose vertex set
equals that of an already constructed face of the same mesh. -/
def faces_new_ok (existing : List (List Nat)) (loop : List Nat) : Bool :=
  decide (3 ≤ loop.length) && loop.Nodup && existing.all (fun q => decide (q.toFinset ≠ loop.toFinset))

/-- Vertex `v`'s position from the flat float list (`dex = v * 3`, line 586). -/
def vertPos (vertex_list : List ℚ) (v : Nat) : Option Vec3 :=
  match vertex_list.get? (v * 3), vertex_list.get? (v * 3 + 1), vertex_list.get? (v * 3 + 2) with
  | some x, some y, some z => some (x, y, z)
  | _, _, _ => none

/-- Dot product of two 3-vectors (`loopElement.vert.co.dot(texS)`). -/
def dot3 (a b : Vec3) : ℚ :=
  a.1 * b.1 + a.2.1 * b.2.1 + a.2.2 * b.2.2

/-- Lines 649-652: per-loop-vertex UV from the unscaled vertex position,
`texS = texinfo[0:3]`, `texT = texinfo[4:7]` and the texture dimensions. -/
def computeUV (ti : BSPTexInfoRec) (tex : TextureItem) (pos : Vec3) : ℚ × ℚ :=
  ((dot3 pos (ti.s_x, ti.s_y, ti.s_z) + ti.s_dist) / (tex.width : ℚ),
   -((dot3 pos (ti.t_x, ti.t_y, ti.t_z) + ti.t_dist) / (tex.height : ℚ)))

/-- One constructed polygon: the face-table index it came from, its vertex
loop (in the order handed to `bm.faces.new`) and its per-loop UVs. -/
structure PolyResult where
  face_index : Nat
  loop : List Nat
  uvs : List (ℚ × ℚ)
deriving DecidableEq

/-- The mutable per-model state of the face loop (lines 583-590). -/
structure ModelState where
  used : List Bool
  polys : List PolyResult
  duplicateFaces : Nat
deriving DecidableEq

/-- The decoded tables consumed by the per-model face loop. -/
structure GeoInput where
  vertex_list : List ℚ
  face_table : List BSPFaceRec
  edge_table : List BSPEdgeRec
  edge_index_list : List Int
  texinfo_table : List BSPTexInfoRec
  texture_data : List TextureItem
deriving DecidableEq

/-- One iteration of the face loop (lines 591-656), for face-table index
`fIdx`.  Material bookkeeping (lines 624-632, 654-656) touches only host
material state and is omitted.  A zero texture width or height makes the UV
division raise `ZeroDivisionError`, aborting the import. -/
def processFace (inp : GeoInput) (remove_hidden : Bool) (meshVerts : List Vec3)
    (st : ModelState) (fIdx : Nat) : Option ModelState :=
  match inp.face_table.get? fIdx with
  | none => none
  | some face =>
    match inp.texinfo_table.get? face.texinfo_id with
    | none => none
    | some texinfo =>
      match inp.texture_data.get? texinfo.texture_id with
      | none => none
      | some tex =>
        if remove_hidden && ignored_texnames.contains tex.name then some st
        else
          match walkFace inp.edge_index_list inp.edge_table face.ledge_id face.ledge_num with
          | none => none
          | some vs =>
            match mapOpt (fun v => meshVerts.get? v) vs with
            | none => none
            | some mvs =>
              let used := markUsed st.used vs
              let loop := vs.reverse
              if faces_new_ok (st.polys.map (fun p => p.loop)) loop then
                if tex.width == 0 || tex.height == 0 then none
                else
                  let uvs := mvs.reverse.map (fun pos => computeUV texinfo tex pos)
                  some ⟨used, st.polys ++ [⟨fIdx, loop, uvs⟩], st.duplicateFaces⟩
              else some ⟨used, st.polys, st.duplicateFaces + 1⟩

/-- The face loop over `range(0, model.face_num)`; face-table indices run
from `face_id` (line 592: `face_ofs = (model.face_id + f) * face_size`). -/
def processFaces (inp : GeoInput) (remove_hidden : Bool) (meshVerts : List Vec3) :
    Nat → Nat → ModelState → Option ModelState
  | _, 0, st => some st
  | fid, n + 1, st =>
    match processFace inp remove_hidden meshVerts st fid with
    | none => none
    | some st' => processFaces inp remove_hidden meshVerts (fid + 1) n st'

/-- Per-model import options consumed by the face loop (lines 568, 577). -/
structure GeoOptions where
  scale : ℚ
  remove_hidden : Bool
deriving DecidableEq

/-- The finished per-model mesh data handed to the host scene. -/
structure ModelResult where
  objScale : ℚ
  polys : List PolyResult
  duplicateFaces : Nat
  keptVerts : List Nat
  used : List Bool
deriving DecidableEq

/-- Lines 574-666 for one model: create one mesh vertex per global
vertex-table entry (lines 583-588), apply the import scale to the object
only (lines 577-580), run the face loop, then remove the vertices whose
`usedVerts` flag is still false (lines 661-664). -/
def processModel (opts : GeoOptions) (inp : GeoInput) (num_verts : Nat)
    (model : BSPModelRec) : Option ModelResult :=
  match mapOpt (fun v => vertPos inp.vertex_list v) (List.range num_verts) with
  | none => none
  | some meshVerts =>
    match processFaces inp opts.remove_hidden meshVerts model.face_id model.face_num
        ⟨List.replicate num_verts false, [], 0⟩ with
    | none => none
    | some st =>
      some ⟨opts.scale, st.polys, st.duplicateFaces,
        (List.range num_verts).filter (fun v => st.used.getD v false), st.used⟩

/-! ## Entity text parser (`get_entity_data`, lines 300-333)

The function reads the entity lump and decodes it with `cp437` (which cannot
fail: every byte maps); it is embedded here from the line list downward,
after `splitlines()`. -/

/-- An entity record: Python's insertion-ordered `dict` of string pairs. -/
abbrev Entity : Type := List (String × String)

/-- `entity[k] = v`: overwrite in place when the key exists, else append. -/
def dictInsert (e : Entity) (k v : String) : Entity :=
  if e.any (fun p => p.1 == k) then e.map (fun p => if p.1 == k then (k, v) else p)
  else e ++ [(k, v)]

/-- `key in entity`. -/
def hasKeyB (e : Entity) (k : String) : Bool :=
  e.any (fun p => p.1 == k)

/-- Line 325: `kv = [s for s in lines[i].split('"') if s != '' and s != ' ']`,
kept only when it has exactly two parts (lines 326-327). -/
def parseKV (line : String) : Option (String × String) :=
  match (pySplit line '\"').filter (fun s => s != "" && s != " ") with
  | [k, v] => some (k, v)
  | _ => none

/-- Both required keys present (line 329). -/
def entityKeysOk (e : Entity) : Bool :=
  hasKeyB e "classname" && hasKeyB e "origin"

/-- The nested `while` loops of lines 319-331 as a line-by-line state
machine: `none` means outside a record (scanning for a `{` line), `some e`
means inside a record accumulated so far.  A record ends at a `}` line or at
the end of the lump (the record is still checked and appended there), and is
kept only when it has both a `classname` and an `origin` key. -/
def entLoop : List String → Option Entity → List Entity
  | [], none => []
  | [], some e => if entityKeysOk e then [e] else []
  | line :: rest, none =>
    if pyStartsWith line "\x7b" then entLoop rest (some []) else entLoop rest none
  | line :: rest, some e =>
    if pyStartsWith line "\x7d" then
      (if entityKeysOk e then [e] else []) ++ entLoop rest none
    else
      entLoop rest (some (match parseKV line with
        | some (k, v) => dictInsert e k v
        | none => e))

/-- `get_entity_data` on the decoded, split entity text. -/
def get_entity_data (lines : List String) : List Entity :=
  entLoop lines none

/-- The same traversal with the key filter of line 329 removed: every
brace-delimited record, as parsed.  Spec-side counterpart for C6. -/
def entLoopAll : List String → Option Entity → List Entity
  | [], none => []
  | [], some e => [e]
  | line :: rest, none =>
    if pyStartsWith line "\x7b" then entLoopAll rest (some []) else entLoopAll rest none
  | line :: rest, some e =>
    if pyStartsWith line "\x7d" then
      e :: entLoopAll rest none
    else
      entLoopAll rest (some (match parseKV line with
        | some (k, v) => dictInsert e k v
        | none => e))

/-! ## Scene assembly: entity classification (`import_bsp`, lines 684-721) -/

/-- Module-level constants of lines 107-118. -/
def imported_entity_prefixes : List String :=
  ["monster_", "item_", "weapon_"]

/-- The fixed camera-type classname set (lines 113-116). -/
def camera_types : List String :=
  ["info_intermission", "info_player_start"]

/-- `is_imported_entity` (lines 135-139). -/
def is_imported_entity (classname : String) : Bool :=
  imported_entity_prefixes.any (fun p => pyStartsWith classname p)

/-- `entity[key]` lookup on the ordered record. -/
def lookupKey (e : Entity) (k : String) : Option String :=
  (e.find? (fun p => p.1 == k)).map (fun p => p.2)

/-- The entity-related import options (lines 686-689). -/
structure EntityOptions where
  create_entities : Bool
  create_lights : Bool
  create_cameras : Bool
  all_entities : Bool
deriving DecidableEq

/-- Objects produced by the entity loop, identified by entity index, plus
the designated active scene camera (set inside `camera_add`, line 413-414,
for every camera whose classname is `info_player_start`). -/
structure SceneState where
  added_objects : List Nat
  added_lights : List Nat
  sceneCamera : Option Nat
deriving DecidableEq

/-- The entity loop of lines 696-709; `i` is the index of the next entity.
A missing `classname` key raises `KeyError` (line 697), aborting. -/
def classifyEntities (opts : EntityOptions) : List Entity → Nat → SceneState → Option SceneState
  | [], _, st => some st
  | e :: rest, i, st =>
    match lookupKey e "classname" with
    | none => none
    | some classname =>
      let st' :=
        if pyStartsWith classname "light" then
          (if opts.create_lights then
            { st with added_lights := st.added_lights ++ [i] }
          else st)
        else if opts.create_cameras && camera_types.contains classname then
          { st with
            added_objects := st.added_objects ++ [i],
            sceneCamera := if classname == "info_player_start" then some i else st.sceneCamera }
        else if opts.all_entities || (opts.create_entities && is_imported_entity classname) then
          { st with added_objects := st.added_objects ++ [i] }
        else st
      classifyEntities opts rest (i + 1) st'

/-- Lines 690-709: the entity phase runs only when some entity output was
requested; otherwise no entity object is created and no camera designated. -/
def scene_entities (opts : EntityOptions) (entities : List Entity) : Option SceneState :=
  if opts.create_entities || opts.create_cameras || opts.create_lights || opts.all_entities then
    classifyEntities opts entities 0 ⟨[], [], none⟩
  else some ⟨[], [], none⟩

/-- Spec-side for C9: an entity that reaches `camera_add` and triggers the
active-camera assignment — camera creation requested and classname equal to
the player start (which is in `camera_types` and has no `light` start). -/
def isPlayerStartCam (opts : EntityOptions) (e : Entity) : Bool :=
  opts.create_cameras && (lookupKey e "classname" == some "info_player_start")

/-- Spec-side for C9: the index (counting from `i`) of the LAST entity
satisfying `isPlayerStartCam`, if any. -/
def lastMatchIdx (opts : EntityOptions) : List Entity → Nat → Option Nat
  | [], _ => none
  | e :: rest, i =>
    match lastMatchIdx opts rest (i + 1) with
    | some j => some j
    | none => if isPlayerStartCam opts e then some i else none

/-! ## Texture decoder (`load_textures`, lines 195-295)

The palette (`load_palette`, lines 165-174) is a companion resource; its
decoded 768-entry colour list is passed in as `colors`.  Images are flat
RGBA pixel lists. -/

/-- Palette constants (lines 125-126). -/
def fullbright_index : Nat := 224

/-- Palette index rendered fully transparent on `"\x7b"`-named textures. -/
def transparent_index : Nat := 255

/-- Special texture-name markers (lines 121-123): `transparent_prefix` is
the opening-brace character, `liquid_prefix` is `*`, `sky_prefix` is `sky`. -/
def transparent_marker : String := "\x7b"

/-- The liquid marker `*`. -/
def liquid_marker : String := "*"

/-- The sky marker `sky`. -/
def sky_marker : String := "sky"

/-- `load_palette` (lines 165-174): 768 palette bytes normalised to `[0,1]`
floats with an optional brightness offset clamped per channel; raises when
fewer than 768 bytes are available. -/
def load_palette (palette_file : List Nat) (brightness_adjust : ℚ) : Option (List ℚ) :=
  match readBytes palette_file 0 768 with
  | none => none
  | some colors_byte =>
    let colors := colors_byte.map (fun c => (c : ℚ) / 255)
    if brightness_adjust ≠ 0 then
      some (colors.map (fun c => max 0 (min (c + brightness_adjust) 1)))
    else some colors

/-- The decoded miptex record (`BSPMipTex._make`, format `<16s6I`). -/
structure MipTexRec where
  name16 : List Nat
  width : Nat
  height : Nat
  ofs1 : Nat
  ofs2 : Nat
  ofs4 : Nat
  ofs8 : Nat
deriving DecidableEq

/-- Unpack a 40-byte miptex header buffer. -/
def parseMipTex (bs : List Nat) : MipTexRec :=
  ⟨bs.take 16, u32 bs 16, u32 bs 20, u32 bs 24, u32 bs 28, u32 bs 32, u32 bs 36⟩

/-- `bytes.decode('ascii')`: fails on any byte above 127. -/
def asciiDecode (bs : List Nat) : Option String :=
  if bs.all (fun b => b < 128) then some (String.mk (bs.map Char.ofNat)) else none

/-- Lines 222-226: scan the 16-byte name for its first NUL and decode the
bytes before it; when NO byte is zero the loop assigns nothing and
`miptex_name` keeps its value from the previous iteration of the texture
loop (`curName`) — unbound (`none`, a `NameError`) on the first texture. -/
def resolveName (name16 : List Nat) (curName : Option String) : Option String :=
  match name16.findIdx? (fun b => b == 0) with
  | some i => asciiDecode (name16.take i)
  | none => curName

/-- `generate_mask` (lines 177-192): a same-size RGBA mask image whose
foreground pixels are the given (pre-flip) pixel indices. -/
def generate_mask (fg_indices : List Nat) (width height : Nat) (black_background : Bool) : List ℚ :=
  let fg : ℚ := if black_background then 1 else 0
  let bg : ℚ := if black_background then 0 else 1
  let init := List.replicate (width * height * 4) bg
  fg_indices.foldl (fun m i =>
    let x := i % width
    let y := (height - 1) - (i - x) / width
    let idx := (width * y + x) * 4
    ((((m.set idx fg).set (idx + 1) fg).set (idx + 2) fg).set (idx + 3) 1)) init

/-- Lines 249-276: convert the palettised pixels to RGBA, bottom row first
(`for y in reversed(range(height))`), collecting fullbright pixel indices.
`pal` has exactly `width * height` entries, so the `getD` default is
unreachable; a palette colour lookup out of range raises (`none`). -/
def decodePixels (colors : List ℚ) (pal : List Nat) (width height : Nat)
    (create_mask is_transparent : Bool) : Option (List ℚ × List Nat) :=
  (List.range height).reverse.foldlM (fun st y =>
    (List.range width).foldlM (fun st2 x =>
      let idx := width * y + x
      let c := pal.getD idx 0
      let fb :=
        if create_mask then
          if is_transparent then
            if c == transparent_index then st2.2
            else if fullbright_index ≤ c then st2.2 ++ [idx]
            else st2.2
          else if fullbright_index ≤ c then st2.2 ++ [idx]
          else st2.2
        else st2.2
      let alpha : ℚ := if create_mask && is_transparent && (c == transparent_index) then 0 else 1
      match colors.get? (c * 3), colors.get? (c * 3 + 1), colors.get? (c * 3 + 2) with
      | some r, some g, some b => some (st2.1 ++ [r, g, b, alpha], fb)
      | _, _, _ => none) st)
    (([] : List ℚ), ([] : List Nat))

/-- Lines 215-293 for ONE miptex directory entry at lump-relative offset
`ofs`: read and unpack the 40-byte header (not guarded — failure aborts the
whole import), resolve the NUL-trimmed name, then try the base-mip pixel
read; if it fails, keep the placeholder item (`image = none`) and continue
(lines 237-245); otherwise decode pixels, set flags and build the optional
emission mask (lines 247-293).  Returns the updated `miptex_name` local and
the produced texture entry. -/
def loadOneMiptex (file : List Nat) (colors : List ℚ) (load_miptex : Bool)
    (miptex_ofs : Nat) (curName : Option String) (ofs : Int) :
    Option (Option String × TextureItem) :=
  match readBytesI file ((miptex_ofs : Int) + ofs) 40 with
  | none => none
  | some hdrBytes =>
    let mt := parseMipTex hdrBytes
    match resolveName mt.name16 curName with
    | none => none
    | some name =>
      let item0 : TextureItem := ⟨name, mt.width, mt.height, none, none, false, false⟩
      if load_miptex = false then some (some name, item0)
      else
        match readBytesI file ((miptex_ofs : Int) + ofs + (mt.ofs1 : Int)) (mt.width * mt.height) with
        | none => some (some name, item0)
        | some pixels_pal =>
          let is_transparent := pyStartsWith name transparent_marker
          let is_emissive := pyStartsWith name liquid_marker || pyStartsWith name sky_marker
          let create_mask := !is_emissive && !(ignored_texnames.contains name)
          match decodePixels colors pixels_pal mt.width mt.height create_mask is_transparent with
          | none => none
          | some (pixels, fullbright) =>
            let item2 := { item0 with
              image := some pixels, is_emissive := is_emissive, use_alpha := is_transparent }
            let mask2 :=
              if 0 < fullbright.length && fullbright.length < mt.width * mt.height then
                some (generate_mask fullbright mt.width mt.height true)
              else none
            let item3 :=
              if 0 < fullbright.length then { item2 with is_emissive := true, mask := mask2 }
              else item2
            some (some name, item3)

/-- The texture loop of lines 215-293, threading the `miptex_name` local
through the iterations. -/
def loadTexturesLoop (file : List Nat) (colors : List ℚ) (load_miptex : Bool)
    (miptex_ofs : Nat) : List Int → Option String → Option (List TextureItem)
  | [], _ => some []
  | ofs :: rest, curName =>
    match loadOneMiptex file colors load_miptex miptex_ofs curName ofs with
    | none => none
    | some (curName', item) =>
      match loadTexturesLoop file colors load_miptex miptex_ofs rest curName' with
      | none => none
      | some items => some (item :: items)

/-- Lines 196-204: parse the header, then the leading miptex count (signed;
a negative count makes the `'<%di'` format raise) and the directory of
lump-relative signed offsets. -/
def miptexDirectory (file : List Nat) : Option (Nat × List Int) :=
  match readBytes file 0 (calcsize fmt_BSPHeader) with
  | none => none
  | some hb =>
    let header := parseHeader hb
    match readBytes file header.miptex_ofs 4 with
    | none => none
    | some nb =>
      let n := i32FromBytes nb
      if n < 0 then none
      else
        match readBytes file (header.miptex_ofs + 4) (4 * n.toNat) with
        | none => none
        | some ob =>
          some (header.miptex_ofs,
            (List.range n.toNat).map (fun i => i32FromBytes ((ob.drop (4 * i)).take 4)))

/-- `load_textures` (lines 195-295) on the file bytes and decoded palette. -/
def load_textures (file : List Nat) (colors : List ℚ) (load_miptex : Bool) :
    Option (List TextureItem) :=
  match miptexDirectory file with
  | none => none
  | some (mofs, lst) => loadTexturesLoop file colors load_miptex mofs lst none

/-! ## Spec-side characterisations

Definitions below follow the spec's words, for comparison with the embedded
code; each is used only in theorem statements. -/

/-- Spec-side for C4: `u = (dot(pos, s_axis) + s_offset) / texture_width`,
`v = -(dot(pos, t_axis) + t_offset) / texture_height`. -/
def uvFormula (ti : BSPTexInfoRec) (tw th : Nat) (pos : Vec3) : ℚ × ℚ :=
  ((dot3 pos (ti.s_x, ti.s_y, ti.s_z) + ti.s_dist) / (tw : ℚ),
   -((dot3 pos (ti.t_x, ti.t_y, ti.t_z) + ti.t_dist) / (th : ℚ)))

/-- Spec-side for C4: the polygon's UV list is the claimed formula applied
to the unscaled source-space position of each loop vertex, with the face's
texinfo and that texinfo's texture dimensions. -/
def uvSpecHolds (inp : GeoInput) (p : PolyResult) : Prop :=
  ∃ face texinfo tex ps,
    inp.face_table.get? p.face_index = some face ∧
    inp.texinfo_table.get? face.texinfo_id = some texinfo ∧
    inp.texture_data.get? texinfo.texture_id = some tex ∧
    mapOpt (vertPos inp.vertex_list) p.loop = some ps ∧
    p.uvs = ps.map (uvFormula texinfo tex.width tex.height)

/-- Spec-side for C5: the vertex indices referenced during the edge walk of
face `fIdx`, empty when the face is skipped (hidden texture) or when any of
its lookups would abort the import. -/
def faceWalkRefs (inp : GeoInput) (remove_hidden : Bool) (fIdx : Nat) : List Nat :=
  match inp.face_table.get? fIdx with
  | none => []
  | some face =>
    match inp.texinfo_table.get? face.texinfo_id with
    | none => []
    | some texinfo =>
      match inp.texture_data.get? texinfo.texture_id with
      | none => []
      | some tex =>
        if remove_hidden && ignored_texnames.contains tex.name then []
        else (walkFace inp.edge_index_list inp.edge_table face.ledge_id face.ledge_num).getD []

/-- Spec-side for C5: the walk references of `n` consecutive faces starting
at face-table index `fid`. -/
def rangeRefs (inp : GeoInput) (remove_hidden : Bool) : Nat → Nat → List Nat
  | _, 0 => []
  | fid, n + 1 => faceWalkRefs inp remove_hidden fid ++ rangeRefs inp remove_hidden (fid + 1) n

/-- Spec-side for C5: all vertex indices referenced while processing the
model's face range. -/
def modelWalkRefs (inp : GeoInput) (remove_hidden : Bool) (model : BSPModelRec) : List Nat :=
  rangeRefs inp remove_hidden model.face_id model.face_num

/-! ## Concrete inputs used by witnesses and counterexamples -/

/-- Edge-index list of the spec's winding example. -/
def ledgesW : List Int := [3, -7, 2]

/-- Edge table whose record 7 is `(vertex0 = 5, vertex1 = 9)`. -/
def edgesW : List BSPEdgeRec :=
  [⟨0, 0⟩, ⟨0, 0⟩, ⟨2, 0⟩, ⟨3, 0⟩, ⟨0, 0⟩, ⟨0, 0⟩, ⟨0, 0⟩, ⟨5, 9⟩]

/-- A header whose vertex lump holds 16 bytes: not a multiple of the
12-byte vertex record size. -/
def hdrVerts16 : BSPHeaderRec :=
  ⟨0, 0, 0, 0, 0, 0, 0, 0, 16, 0, 0, 0, 0, 0, 0, 0, 0, 0, 0, 0, 0, 0, 0, 0, 0, 0, 0, 0, 0, 0, 0⟩

/-- One triangular face over vertices 0,1,2; vertex 0 sits at `x = 32`. -/
def inpUV : GeoInput :=
  ⟨[32, 0, 0, 0, 0, 0, 0, 1, 0],
   [⟨0, 0, 0, 3, 0, 0, 0, 0, 0, 0⟩],
   [⟨0, 0⟩, ⟨0, 0⟩, ⟨1, 0⟩, ⟨2, 0⟩],
   [1, 2, 3],
   [⟨1, 0, 0, 0, 0, 1, 0, 0, 0, 0⟩],
   [⟨"wall", 64, 64, none, none, false, false⟩]⟩

/-- A model spanning exactly one face starting at face-table index 0. -/
def modelOneFace : BSPModelRec :=
  ⟨0, 0, 0, 0, 0, 0, 0, 0, 0, 0, 0, 0, 0, 0, 0, 1⟩

/-- Default import options for the witnesses. -/
def optsDefault : GeoOptions := ⟨1, true⟩

/-- A 20-vertex pool with one degenerate face whose walk is `[0, 0, 1]`
(vertex 0 repeated): polygon construction fails on it. -/
def inpDegenerate : GeoInput :=
  ⟨List.replicate 60 0,
   [⟨0, 0, 0, 3, 0, 0, 0, 0, 0, 0⟩],
   [⟨0, 0⟩, ⟨0, 0⟩, ⟨1, 0⟩],
   [1, 1, 2],
   [⟨1, 0, 0, 0, 0, 1, 0, 0, 0, 0⟩],
   [⟨"wall", 64, 64, none, none, false, false⟩]⟩

/-- A 20-vertex pool with one triangle referencing exactly vertices 2, 5, 9. -/
def inpPool20 : GeoInput :=
  ⟨List.replicate 60 0,
   [⟨0, 0, 0, 3, 0, 0, 0, 0, 0, 0⟩],
   [⟨0, 0⟩, ⟨2, 0⟩, ⟨5, 0⟩, ⟨9, 0⟩],
   [1, 2, 3],
   [⟨1, 0, 0, 0, 0, 1, 0, 0, 0, 0⟩],
   [⟨"wall", 64, 64, none, none, false, false⟩]⟩

/-- Fallback mesh result used to read off a known-`some` computation. -/
def dummyModelResult : ModelResult := ⟨0, [], 0, [], []⟩

/-- A decoded palette: 768 colour channels (all black). -/
def colors768 : List ℚ := List.replicate 768 0

/-- A miptex lump (directory offsets taken relative to offset 0): entry 0
(`"bad"`) has base-mip offset 9999, far past end of file; entry 1 (`"ok"`)
is a valid 1×1 texture with its pixel byte at offset 120. -/
def fileCorrupt : List Nat :=
  [98, 97, 100] ++ List.replicate 13 0 ++ [1, 0, 0, 0, 1, 0, 0, 0, 15, 39, 0, 0] ++
    List.replicate 12 0 ++
  [111, 107] ++ List.replicate 14 0 ++ [1, 0, 0, 0, 1, 0, 0, 0, 80, 0, 0, 0] ++
    List.replicate 12 0 ++
  List.replicate 40 0 ++ [7]

/-- A whole BSP file whose single miptex entry has a 16-byte name holding
no NUL byte at all (sixteen `'A'`s). -/
def fileNoNul : List Nat :=
  List.replicate 20 0 ++ [124, 0, 0, 0] ++ List.replicate 100 0 ++
  [1, 0, 0, 0] ++ [8, 0, 0, 0] ++ List.replicate 16 65 ++ List.replicate 24 0

/-- A whole BSP file with one valid 1×1 miptex entry named `"ok"`. -/
def fileOneTex : List Nat :=
  List.replicate 20 0 ++ [124, 0, 0, 0] ++ List.replicate 100 0 ++
  [1, 0, 0, 0] ++ [8, 0, 0, 0] ++
  [111, 107] ++ List.replicate 14 0 ++ [1, 0, 0, 0, 1, 0, 0, 0, 40, 0, 0, 0] ++
    List.replicate 12 0 ++ [3]

/-- Entity options requesting only cameras. -/
def optsCamerasOnly : EntityOptions := ⟨false, false, true, false⟩

/-- A player-start entity at the origin. -/
def entPlayerStart : Entity := [("classname", "info_player_start"), ("origin", "0 0 0")]

/-- A second player-start entity, further along the x axis. -/
def entPlayerStart2 : Entity := [("classname", "info_player_start"), ("origin", "64 0 0")]

/-! ## Helper lemmas -/

theorem mapOpt_length {f : α → Option β} : ∀ {xs : List α} {ys : List β},
    mapOpt f xs = some ys → ys.length = xs.length := by
  intro xs
  induction xs with
  | nil => intro ys h; simp [mapOpt] at h; subst h; rfl
  | cons a as ih =>
    intro ys h
    simp only [mapOpt] at h
    cases hfa : f a with
    | none => rw [hfa] at h; simp at h
    | some b =>
      rw [hfa] at h
      cases hrest : mapOpt f as with
      | none => rw [hrest] at h; simp at h
      | some bs =>
        rw [hrest] at h
        simp at h
        subst h
        simp [ih hrest]

theorem mapOpt_get? {f : α → Option β} : ∀ {xs : List α} {ys : List β},
    mapOpt f xs = some ys → ∀ i, ys.get? i = (xs.get? i).bind f := by
  intro xs
  induction xs with
  | nil => intro ys h i; simp [mapOpt] at h; subst h; simp
  | cons a as ih =>
    intro ys h i
    simp only [mapOpt] at h
    cases hfa : f a with
    | none => rw [hfa] at h; simp at h
    | some b =>
      rw [hfa] at h
      cases hrest : mapOpt f as with
      | none => rw [hrest] at h; simp at h
      | some bs =>
        rw [hrest] at h
        simp at h
        subst h
        cases i with
        | zero => simp [hfa]
        | succ i =>
          have := ih hrest i
          simpa using this

theorem mapOpt_congr {f g : α → Option β} (hfg : ∀ a b, f a = some b → g a = some b) :
    ∀ {xs : List α} {ys : List β}, mapOpt f xs = some ys → mapOpt g xs = some ys := by
  intro xs
  induction xs with
  | nil => intro ys h; exact h
  | cons a as ih =>
    intro ys h
    simp only [mapOpt] at h ⊢
    cases hfa : f a with
    | none => rw [hfa] at h; simp at h
    | some b =>
      rw [hfa] at h
      cases hrest : mapOpt f as with
      | none => rw [hrest] at h; simp at h
      | some bs =>
        rw [hrest] at h
        rw [hfg a b hfa, ih hrest]
        exact h

theorem mapOpt_append {f : α → Option β} : ∀ {xs₁ xs₂ : List α} {ys₁ ys₂ : List β},
    mapOpt f xs₁ = some ys₁ → mapOpt f xs₂ = some ys₂ →
    mapOpt f (xs₁ ++ xs₂) = some (ys₁ ++ ys₂) := by
  intro xs₁
  induction xs₁ with
  | nil => intro xs₂ ys₁ ys₂ h₁ h₂; simp [mapOpt] at h₁; simp [← h₁, h₂]
  | cons a as ih =>
    intro xs₂ ys₁ ys₂ h₁ h₂
    simp only [mapOpt] at h₁
    cases hfa : f a with
    | none => rw [hfa] at h₁; simp at h₁
    | some b =>
      rw [hfa] at h₁
      cases hrest : mapOpt f as with
      | none => rw [hrest] at h₁; simp at h₁
      | some bs =>
        rw [hrest] at h₁
        simp at h₁
        subst h₁
        simp only [List.cons_append, mapOpt, List.append_eq]
        rw [hfa, ih hrest h₂]

theorem mapOpt_reverse {f : α → Option β} : ∀ {xs : List α} {ys : List β},
    mapOpt f xs = some ys → mapOpt f xs.reverse = some ys.reverse := by
  intro xs
  induction xs with
  | nil => intro ys h; simp [mapOpt] at h; subst h; simp [mapOpt]
  | cons a as ih =>
    intro ys h
    simp only [mapOpt] at h
    cases hfa : f a with
    | none => rw [hfa] at h; simp at h
    | some b =>
      rw [hfa] at h
      cases hrest : mapOpt f as with
      | none => rw [hrest] at h; simp at h
      | some bs =>
        rw [hrest] at h
        simp at h
        subst h
        simp only [List.reverse_cons, List.reverse_cons]
        exact mapOpt_append (ih hrest) (by simp [mapOpt, hfa])

theorem markUsed_length : ∀ (vs : List Nat) (used : List Bool),
    (markUsed used vs).length = used.length := by
  intro vs
  induction vs with
  | nil => intro used; rfl
  | cons v vs ih => intro used; simp [markUsed, ih, List.length_set]

theorem markUsed_getD : ∀ (vs : List Nat) (used : List Bool) (v : Nat), v < used.length →
    (markUsed used vs).getD v false = (used.getD v false || vs.contains v) := by
  intro vs
  induction vs with
  | nil => intro used v _; simp [markUsed]
  | cons a vs ih =>
    intro used v hv
    simp only [markUsed]
    rw [ih (used.set a true) v (by simpa using hv)]
    by_cases hav : a = v
    · subst hav
      have hset : (used.set a true)[a]? = some true := by
        simp [List.getElem?_set, hv]
      simp [List.getD_eq_getElem?_getD, hset, List.contains_cons]
    · have hset : (used.set a true)[v]? = used[v]? := List.getElem?_set_ne hav
      have hva : v ≠ a := fun hh => hav hh.symm
      simp [List.getD_eq_getElem?_getD, hset, List.contains_cons, hva]

/-! ## C2: lump record counts -/

/-- C2 (amended): record counts are computed only for the models, vertices,
faces and edges lumps, as the floor of `lump.size / record_size` for the
active variant; a size that is not an exact multiple truncates silently —
`computeCounts` is total and never signals an inconsistent lump. -/
theorem lump_counts_floor (h : BSPHeaderRec) (bsp2 : Bool) :
    (computeCounts h bsp2).num_models = h.models_size / 64 ∧
    64 * (computeCounts h bsp2).num_models ≤ h.models_size ∧
    h.models_size < 64 * ((computeCounts h bsp2).num_models + 1) ∧
    (computeCounts h bsp2).num_verts = h.verts_size / 12 ∧
    12 * (computeCounts h bsp2).num_verts ≤ h.verts_size ∧
    h.verts_size < 12 * ((computeCounts h bsp2).num_verts + 1) ∧
    (computeCounts h bsp2).num_faces = h.faces_size / (if bsp2 then 28 else 20) ∧
    (computeCounts h bsp2).num_edges = h.edges_size / (if bsp2 then 8 else 4) := by
  have e₁ : calcsize fmt_BSPModel = 64 := by decide
  have e₂ : calcsize fmt_BSPVertex = 12 := by decide
  have e₃ : face_size bsp2 = if bsp2 then 28 else 20 := by cases bsp2 <;> decide
  have e₄ : edge_size bsp2 = if bsp2 then 8 else 4 := by cases bsp2 <;> decide
  have hm := Nat.div_add_mod h.models_size 64
  have hm' := Nat.mod_lt h.models_size (show 0 < 64 by norm_num)
  have hv := Nat.div_add_mod h.verts_size 12
  have hv' := Nat.mod_lt h.verts_size (show 0 < 12 by norm_num)
  refine ⟨?_, ?_, ?_, ?_, ?_, ?_, ?_, ?_⟩ <;>
    simp only [computeCounts, e₁, e₂, e₃, e₄] <;> omega

/-- C2 (counterexample): a vertex lump of 16 bytes is not a multiple of the
12-byte record size, yet the importer computes `num_verts = 1` (truncating)
and raises nothing — there is no `InconsistentLump` failure path. -/
theorem lump_nonmultiple_no_failure :
    16 % calcsize fmt_BSPVertex ≠ 0 ∧ hdrVerts16.verts_size = 16 ∧
    computeCounts hdrVerts16 false = ⟨0, 1, 0, 0⟩ := by
  decide

/-! ## C3: format-variant detection -/

/-- C3: variant detection is a pure function of the version field — exactly
the magic value 844124994 (`'BSP2'`) selects the extended variant, every
other version value (accepted, never rejected) selects the classic one; the
extended variant widens the face and edge records from 20/4 bytes (16-bit
index fields) to 28/8 bytes (32-bit index fields). -/
theorem variant_detection_pure :
    (∀ v : Nat, detect_bsp2 v = true ↔ v = 844124994) ∧
    face_size true = 28 ∧ face_size false = 20 ∧
    edge_size true = 8 ∧ edge_size false = 4 ∧
    fmt_BSP2Face = [4, 4, 4, 4, 4, 1, 1, 1, 1, 4] ∧
    fmt_BSPFace = [2, 2, 4, 2, 2, 1, 1, 1, 1, 4] ∧
    fmt_BSP2Edge = [4, 4] ∧ fmt_BSPEdge = [2, 2] := by
  refine ⟨?_, by decide, by decide, by decide, by decide, by decide, by decide, by decide, by decide⟩
  intro v
  simp [detect_bsp2]

/-! ## C1: signed edge-index winding resolution -/

theorem walkFaceFrom_get (ledges : List Int) (edges : List BSPEdgeRec) (lid : Int) :
    ∀ (n i : Nat) (res : List Nat), walkFaceFrom ledges edges lid i n = some res →
    ∀ j, j < n → ∃ idx e, pyGet ledges (lid + ((i + j : Nat) : Int)) = some idx ∧
      edges.get? idx.natAbs = some e ∧
      res.get? j = some (if idx < 0 then e.vertex1 else e.vertex0) := by
  intro n
  induction n with
  | zero => intro i res _ j hj; omega
  | succ n ih =>
    intro i res h j hj
    simp only [walkFaceFrom] at h
    cases hp : pyGet ledges (lid + (i : Int)) with
    | none => rw [hp] at h; simp at h
    | some idx =>
      rw [hp] at h
      dsimp only at h
      cases hw : windingVertex edges idx with
      | none => rw [hw] at h; simp at h
      | some vofs =>
        rw [hw] at h
        dsimp only at h
        cases hr : walkFaceFrom ledges edges lid (i + 1) n with
        | none => rw [hr] at h; simp at h
        | some rest =>
          rw [hr] at h
          simp at h
          subst h
          cases j with
          | zero =>
            refine ⟨idx, ?_⟩
            simp only [windingVertex] at hw
            by_cases hneg : idx < 0
            · rw [if_pos hneg] at hw
              cases hg : edges.get? (-idx).toNat with
              | none => rw [hg] at hw; simp at hw
              | some e =>
                rw [hg] at hw
                simp at hw
                have habs : (-idx).toNat = idx.natAbs := by omega
                refine ⟨e, ?_, ?_, ?_⟩
                · simpa using hp
                · rw [← habs]; exact hg
                · simp [if_pos hneg, hw]
            · rw [if_neg hneg] at hw
              cases hg : edges.get? idx.toNat with
              | none => rw [hg] at hw; simp at hw
              | some e =>
                rw [hg] at hw
                simp at hw
                have habs : idx.toNat = idx.natAbs := by omega
                refine ⟨e, ?_, ?_, ?_⟩
                · simpa using hp
                · rw [← habs]; exact hg
                · simp [if_neg hneg, hw]
          | succ k =>
            have hk : k < n := by omega
            obtain ⟨idx', e, h₁, h₂, h₃⟩ := ih (i + 1) rest hr k hk
            refine ⟨idx', e, ?_, h₂, ?_⟩
            · have : ((i + 1 + k : Nat) : Int) = ((i + (k + 1) : Nat) : Int) := by
                push_cast
                ring
              rw [← this]
              exact h₁
            · simpa using h₃

/-- C1: for every signed edge index in a face's edge-list range, the walk
resolves the record at the index's absolute value in the edge table and
picks the winding endpoint by sign — `vertex0` for a non-negative index,
`vertex1` for a negative one. -/
theorem edge_winding_resolution (ledges : List Int) (edges : List BSPEdgeRec) (lid : Int)
    (n : Nat) (res : List Nat) (h : walkFace ledges edges lid n = some res)
    (j : Nat) (hj : j < n) :
    ∃ idx e, pyGet ledges (lid + (j : Int)) = some idx ∧
      edges.get? idx.natAbs = some e ∧
      res.get? j = some (if idx < 0 then e.vertex1 else e.vertex0) := by
  have := walkFaceFrom_get ledges edges lid n 0 res h j hj
  simpa using this

/-- C1 witness: on edge-index list `[3, -7, 2]` with edge record 7 equal to
`(vertex0 = 5, vertex1 = 9)`, position 1 of the walk resolves `-7` to
vertex 9, the second endpoint. -/
theorem edge_winding_resolution_witness :
    ∃ idx e, pyGet ledgesW ((0 : Int) + ((1 : Nat) : Int)) = some idx ∧
      edgesW.get? idx.natAbs = some e ∧
      ([3, 9, 2] : List Nat).get? 1 = some (if idx < 0 then e.vertex1 else e.vertex0) :=
  edge_winding_resolution ledgesW edgesW 0 3 [3, 9, 2] (by decide) 1 (by decide)

/-! ## C6: entity record retention -/

/-- C6: the entity parser's output is exactly the sequence of parsed
brace-delimited records filtered by "has both a `classname` and an `origin`
key" — records lacking either key are dropped, retained ones are kept
verbatim as parsed (so key order is irrelevant to retention); in
particular a block holding only `classname` is dropped and one holding
both keys is retained. -/
theorem entity_retention_filter :
    (∀ (lines : List String) (mode : Option Entity),
      entLoop lines mode = (entLoopAll lines mode).filter entityKeysOk) ∧
    get_entity_data ["\x7b", "\"classname\" \"info_null\"", "\x7d"] = [] ∧
    get_entity_data ["\x7b", "\"origin\" \"0 0 0\"", "\"classname\" \"info_null\"", "\x7d"] =
      [[("origin", "0 0 0"), ("classname", "info_null")]] := by
  refine ⟨?_, by decide, by decide⟩
  intro lines
  induction lines with
  | nil =>
    intro mode
    cases mode with
    | none => rfl
    | some e =>
      simp only [entLoop, entLoopAll, List.filter]
      cases hk : entityKeysOk e <;> simp [hk]
  | cons line rest ih =>
    intro mode
    cases mode with
    | none =>
      simp only [entLoop, entLoopAll]
      by_cases hs : pyStartsWith line "\x7b" <;> simp [hs, ih]
    | some e =>
      simp only [entLoop, entLoopAll]
      by_cases hs : pyStartsWith line "\x7d"
      · simp only [hs, if_pos, List.filter_cons]
        cases hk : entityKeysOk e <;> simp [hk, ih]
      · simp [hs, ih]

/-! ## C9: designated active camera -/

theorem lastMatchIdx_of_no_cameras (opts : EntityOptions) (hcc : opts.create_cameras = false) :
    ∀ (ents : List Entity) (i : Nat), lastMatchIdx opts ents i = none := by
  intro ents
  induction ents with
  | nil => intro i; rfl
  | cons e rest ih =>
    intro i
    simp [lastMatchIdx, ih, isPlayerStartCam, hcc]

theorem classifyEntities_camera (opts : EntityOptions) :
    ∀ (ents : List Entity) (i : Nat) (st st' : SceneState),
    classifyEntities opts ents i st = some st' →
    st'.sceneCamera = (match lastMatchIdx opts ents i with
      | some j => some j
      | none => st.sceneCamera) := by
  intro ents
  induction ents with
  | nil =>
    intro i st st' h
    simp [classifyEntities] at h
    subst h
    simp [lastMatchIdx]
  | cons e rest ih =>
    intro i st st' h
    simp only [classifyEntities] at h
    cases hc : lookupKey e "classname" with
    | none => rw [hc] at h; simp at h
    | some classname =>
      rw [hc] at h
      dsimp only at h
      rw [ih (i + 1) _ st' h]
      simp only [lastMatchIdx]
      cases hl : lastMatchIdx opts rest (i + 1) with
      | some j => simp
      | none =>
        dsimp only
        have hps : isPlayerStartCam opts e =
            (opts.create_cameras && (classname == "info_player_start")) := by
          simp [isPlayerStartCam, hc]
        by_cases h₁ : pyStartsWith classname "light"
        · have hne : classname ≠ "info_player_start" := by
            intro hh
            subst hh
            revert h₁
            decide
          simp only [h₁, if_pos]
          have : isPlayerStartCam opts e = false := by
            simp [hps, hne]
          rw [this]
          by_cases h₂ : opts.create_lights = true <;> simp [h₂]
        · simp only [h₁]
          by_cases h₂ : opts.create_cameras && camera_types.contains classname
          · rw [if_pos h₂]
            have hcc : opts.create_cameras = true := by
              have := h₂
              simp at this
              exact this.1
            by_cases h₃ : classname = "info_player_start"
            · subst h₃
              simp [hps, hcc]
            · have : (classname == "info_player_start") = false := by
                simp [h₃]
              simp [hps, this]
          · have hps' : isPlayerStartCam opts e = false := by
              cases hcc : opts.create_cameras with
              | false => simp [hps, hcc]
              | true =>
                by_cases h₃ : classname = "info_player_start"
                · subst h₃
                  exact absurd (by simp [hcc, camera_types]) h₂
                · simp [hps, h₃]
            rw [if_neg h₂, hps']
            by_cases h₄ : opts.all_entities || (opts.create_entities && is_imported_entity classname) <;>
              simp [h₄]

/-- C9 (amended): when the entity phase runs, the designated active camera
is the LAST camera-type entity (in entity order) whose classname is the
player start — each `info_player_start` camera overwrites the previous
designation — and no camera is designated when camera creation is off. -/
theorem active_camera_is_last (opts : EntityOptions) (ents : List Entity) (st : SceneState)
    (h : scene_entities opts ents = some st) :
    st.sceneCamera = lastMatchIdx opts ents 0 := by
  simp only [scene_entities] at h
  by_cases hg : (opts.create_entities || opts.create_cameras || opts.create_lights ||
      opts.all_entities) = true
  · rw [if_pos hg] at h
    rw [classifyEntities_camera opts ents 0 _ st h]
    cases hl : lastMatchIdx opts ents 0 <;> simp
  · rw [if_neg hg] at h
    simp at h
    subst h
    have hcc : opts.create_cameras = false := by
      cases hcv : opts.create_cameras
      · rfl
      · exact absurd (by simp [hcv]) hg
    simp [lastMatchIdx_of_no_cameras opts hcc]

/-- C9 witness: with camera creation on and a single player-start entity,
the amended theorem applies and designates that entity (index 0). -/
theorem active_camera_is_last_witness :
    ((scene_entities optsCamerasOnly [entPlayerStart]).getD ⟨[], [], none⟩).sceneCamera =
      lastMatchIdx optsCamerasOnly [entPlayerStart] 0 ∧
    lastMatchIdx optsCamerasOnly [entPlayerStart] 0 = some 0 :=
  ⟨active_camera_is_last optsCamerasOnly [entPlayerStart] _ (by rfl), by rfl⟩

/-- C9 (counterexample): with two player-start entities the code designates
the SECOND one (entity index 1), not the first, because each
`info_player_start` camera overwrites `scene.camera`. -/
theorem active_camera_not_first :
    (scene_entities optsCamerasOnly [entPlayerStart, entPlayerStart2]).map
      SceneState.sceneCamera = some (some 1) ∧ (some 1 : Option Nat) ≠ some 0 :=
  ⟨by rfl, by decide⟩

/-! ## C4/C5: geometry reconstruction invariants -/

theorem contains_append_nat (l₁ l₂ : List Nat) (v : Nat) :
    (l₁ ++ l₂).contains v = (l₁.contains v || l₂.contains v) := by
  induction l₁ with
  | nil => simp
  | cons a l ih => simp [List.contains_cons, ih, Bool.or_assoc]

theorem meshVerts_get {vl : List ℚ} {nv : Nat} {mv : List Vec3}
    (hmv : mapOpt (fun v => vertPos vl v) (List.range nv) = some mv) :
    ∀ a b, mv.get? a = some b → vertPos vl a = some b := by
  intro a b hab
  have hg := mapOpt_get? hmv a
  rw [hab] at hg
  by_cases ha : a < nv
  · have hr : (List.range nv).get? a = some a := by
      simp [List.get?_eq_getElem?, List.getElem?_range ha]
    rw [hr] at hg
    simp at hg
    exact hg.symm
  · have hr : (List.range nv).get? a = none := by
      simp [List.get?_eq_getElem?]
      omega
    rw [hr] at hg
    simp at hg

theorem computeUV_eq_uvFormula (ti : BSPTexInfoRec) (tex : TextureItem) (pos : Vec3) :
    computeUV ti tex pos = uvFormula ti tex.width tex.height pos := rfl

theorem processFace_inv (inp : GeoInput) (rh : Bool) (mv : List Vec3) (nv : Nat)
    (hmv : mapOpt (fun v => vertPos inp.vertex_list v) (List.range nv) = some mv)
    (st st' : ModelState) (f : Nat) (h : processFace inp rh mv st f = some st') :
    st'.used = markUsed st.used (faceWalkRefs inp rh f) ∧
    ((∀ p ∈ st.polys, uvSpecHolds inp p) → ∀ p ∈ st'.polys, uvSpecHolds inp p) := by
  simp only [processFace] at h
  cases hf : inp.face_table.get? f with
  | none => rw [hf] at h; simp at h
  | some face =>
    rw [hf] at h
    dsimp only at h
    cases ht : inp.texinfo_table.get? face.texinfo_id with
    | none => rw [ht] at h; simp at h
    | some texinfo =>
      rw [ht] at h
      dsimp only at h
      cases hx : inp.texture_data.get? texinfo.texture_id with
      | none => rw [hx] at h; simp at h
      | some tex =>
        rw [hx] at h
        dsimp only at h
        by_cases hskip : (rh && ignored_texnames.contains tex.name) = true
        · rw [if_pos hskip] at h
          simp at h
          subst h
          constructor
          · have hrefs0 : faceWalkRefs inp rh f = [] := by
              simp only [faceWalkRefs]
              rw [hf]
              dsimp only
              rw [ht]
              dsimp only
              rw [hx]
              dsimp only
              rw [if_pos hskip]
            rw [hrefs0]
            rfl
          · exact fun hst => hst
        · rw [if_neg hskip] at h
          cases hw : walkFace inp.edge_index_list inp.edge_table face.ledge_id face.ledge_num with
          | none => rw [hw] at h; simp at h
          | some vs =>
            rw [hw] at h
            dsimp only at h
            cases hm : mapOpt (fun v => mv.get? v) vs with
            | none => rw [hm] at h; simp at h
            | some mvs =>
              rw [hm] at h
              dsimp only at h
              have hrefs : faceWalkRefs inp rh f = vs := by
                simp only [faceWalkRefs]
                rw [hf]
                dsimp only
                rw [ht]
                dsimp only
                rw [hx]
                dsimp only
                rw [if_neg hskip, hw]
                rfl
              by_cases hok : faces_new_ok (st.polys.map (fun p => p.loop)) vs.reverse = true
              · rw [if_pos hok] at h
                by_cases hz : (tex.width == 0 || tex.height == 0) = true
                · rw [if_pos hz] at h
                  simp at h
                · rw [if_neg hz] at h
                  simp at h
                  subst h
                  refine ⟨by rw [hrefs], ?_⟩
                  intro hst p hp
                  simp only [List.mem_append, List.mem_singleton] at hp
                  rcases hp with hp | hp
                  · exact hst p hp
                  · subst hp
                    refine ⟨face, texinfo, tex, mvs.reverse, hf, ht, hx, ?_, ?_⟩
                    · exact mapOpt_reverse (mapOpt_congr (meshVerts_get hmv) hm)
                    · show _ = mvs.reverse.map (uvFormula texinfo tex.width tex.height)
                      simp only [List.map_reverse]
                      rfl
              · rw [if_neg hok] at h
                simp at h
                subst h
                exact ⟨by rw [hrefs], fun hst => hst⟩

theorem processFaces_inv (inp : GeoInput) (rh : Bool) (mv : List Vec3) (nv : Nat)
    (hmv : mapOpt (fun v => vertPos inp.vertex_list v) (List.range nv) = some mv) :
    ∀ (n fid : Nat) (st st' : ModelState),
    processFaces inp rh mv fid n st = some st' →
    st'.used.length = st.used.length ∧
    (∀ v, v < st.used.length →
      st'.used.getD v false = (st.used.getD v false || (rangeRefs inp rh fid n).contains v)) ∧
    ((∀ p ∈ st.polys, uvSpecHolds inp p) → ∀ p ∈ st'.polys, uvSpecHolds inp p) := by
  intro n
  induction n with
  | zero =>
    intro fid st st' h
    simp [processFaces] at h
    subst h
    exact ⟨rfl, fun v _ => by simp [rangeRefs], fun hst => hst⟩
  | succ n ih =>
    intro fid st st' h
    simp only [processFaces] at h
    cases hp : processFace inp rh mv st fid with
    | none => rw [hp] at h; simp at h
    | some st₁ =>
      rw [hp] at h
      dsimp only at h
      obtain ⟨hused₁, hpoly₁⟩ := processFace_inv inp rh mv nv hmv st st₁ fid hp
      obtain ⟨hlen, hgetD, hpoly⟩ := ih (fid + 1) st₁ st' h
      have hlen₁ : st₁.used.length = st.used.length := by
        rw [hused₁, markUsed_length]
      refine ⟨by rw [hlen, hlen₁], ?_, fun hst => hpoly (hpoly₁ hst)⟩
      intro v hv
      rw [hgetD v (by rw [hlen₁]; exact hv)]
      rw [hused₁, markUsed_getD _ _ _ hv]
      simp only [rangeRefs, contains_append_nat, Bool.or_assoc]

theorem processModel_inv (opts : GeoOptions) (inp : GeoInput) (nv : Nat)
    (model : BSPModelRec) (r : ModelResult) (h : processModel opts inp nv model = some r) :
    ∃ mv st, mapOpt (fun v => vertPos inp.vertex_list v) (List.range nv) = some mv ∧
      processFaces inp opts.remove_hidden mv model.face_id model.face_num
        ⟨List.replicate nv false, [], 0⟩ = some st ∧
      r = ⟨opts.scale, st.polys, st.duplicateFaces,
        (List.range nv).filter (fun v => st.used.getD v false), st.used⟩ := by
  simp only [processModel] at h
  cases hmv : mapOpt (fun v => vertPos inp.vertex_list v) (List.range nv) with
  | none => rw [hmv] at h; simp at h
  | some mv =>
    rw [hmv] at h
    dsimp only at h
    cases hpf : processFaces inp opts.remove_hidden mv model.face_id model.face_num
        ⟨List.replicate nv false, [], 0⟩ with
    | none => rw [hpf] at h; simp at h
    | some st =>
      rw [hpf] at h
      dsimp only at h
      exact ⟨mv, st, rfl, hpf, (Option.some.inj h).symm⟩

/-- C4: for every successfully constructed polygon, the per-loop UVs are
exactly `u = (dot(pos, s_axis) + s_offset) / texture_width`,
`v = -(dot(pos, t_axis) + t_offset) / texture_height` evaluated on the
unscaled source-space vertex positions; and the whole mesh result is
independent of the global import scale factor, which lands only in the
object's scale field. -/
theorem uv_projection_formula (opts : GeoOptions) (inp : GeoInput) (nv : Nat)
    (model : BSPModelRec) (r : ModelResult) (h : processModel opts inp nv model = some r) :
    (∀ p ∈ r.polys, uvSpecHolds inp p) ∧
    (∀ s : ℚ, processModel ⟨s, opts.remove_hidden⟩ inp nv model =
      some { r with objScale := s }) := by
  obtain ⟨mv, st, hmv, hpf, hr⟩ := processModel_inv opts inp nv model r h
  obtain ⟨-, -, hpoly⟩ :=
    processFaces_inv inp opts.remove_hidden mv nv hmv model.face_num model.face_id
      ⟨List.replicate nv false, [], 0⟩ st hpf
  constructor
  · intro p hp
    have : ∀ p ∈ st.polys, uvSpecHolds inp p := hpoly (by intro q hq; simp at hq)
    apply this
    rw [hr] at hp
    exact hp
  · intro s
    simp only [processModel]
    rw [hmv]
    dsimp only
    rw [hpf]
    dsimp only
    rw [hr]

/-- C4 witness: one triangular face with `s_axis = (1,0,0)`, `s_offset = 0`,
`texture_width = 64` and a vertex at `x = 32`: the theorem applies (its loop
is `[2,1,0]`, one polygon), the claimed formula gives `u = 1/2` at that
vertex, and the mesh output at scale 7 differs only in the scale field. -/
theorem uv_projection_formula_witness :
    (∀ p ∈ ((processModel optsDefault inpUV 3 modelOneFace).getD dummyModelResult).polys,
      uvSpecHolds inpUV p) ∧
    ((processModel optsDefault inpUV 3 modelOneFace).getD dummyModelResult).polys.map
      (fun p => p.loop) = [[2, 1, 0]] ∧
    (uvFormula ⟨1, 0, 0, 0, 0, 1, 0, 0, 0, 0⟩ 64 64 (32, 0, 0)).1 = 1 / 2 ∧
    processModel ⟨7, optsDefault.remove_hidden⟩ inpUV 3 modelOneFace =
      some { (processModel optsDefault inpUV 3 modelOneFace).getD dummyModelResult with
        objScale := 7 } :=
  ⟨(uv_projection_formula optsDefault inpUV 3 modelOneFace _ (by rfl)).1,
   by decide,
   by norm_num [uvFormula, dot3],
   (uv_projection_formula optsDefault inpUV 3 modelOneFace _ (by rfl)).2 7⟩

/-- C5 (amended): after a model's faces are processed, the kept vertices are
exactly those referenced during the edge walk of some processed (non-skipped)
face — vertices referenced only by faces whose polygon construction failed
are retained even though no constructed polygon references them; all other
vertices of the shared pool are removed. -/
theorem unused_vertex_pruning (opts : GeoOptions) (inp : GeoInput) (nv : Nat)
    (model : BSPModelRec) (r : ModelResult) (h : processModel opts inp nv model = some r) :
    r.keptVerts = (List.range nv).filter
      (fun v => (modelWalkRefs inp opts.remove_hidden model).contains v) := by
  obtain ⟨mv, st, hmv, hpf, hr⟩ := processModel_inv opts inp nv model r h
  obtain ⟨-, hgetD, -⟩ :=
    processFaces_inv inp opts.remove_hidden mv nv hmv model.face_num model.face_id
      ⟨List.replicate nv false, [], 0⟩ st hpf
  rw [hr]
  apply List.filter_congr
  intro v hv
  have hvlt : v < nv := List.mem_range.mp hv
  have := hgetD v (by simpa using hvlt)
  rw [this]
  have hrep : (List.replicate nv false).getD v false = false := by
    by_cases hlt : v < nv <;>
      simp [List.getD_eq_getElem?_getD, List.getElem?_replicate, hlt]
  rw [hrep]
  simp [modelWalkRefs]

/-- C5 witness: a model whose single face's walk references exactly vertices
{2, 5, 9} of a 20-vertex global pool keeps exactly those 3 vertices. -/
theorem unused_vertex_pruning_witness :
    ((processModel optsDefault inpPool20 20 modelOneFace).getD dummyModelResult).keptVerts =
      (List.range 20).filter
        (fun v => (modelWalkRefs inpPool20 optsDefault.remove_hidden modelOneFace).contains v) ∧
    (List.range 20).filter
        (fun v => (modelWalkRefs inpPool20 optsDefault.remove_hidden modelOneFace).contains v) =
      [2, 5, 9] :=
  ⟨unused_vertex_pruning optsDefault inpPool20 20 modelOneFace _ (by rfl), by decide⟩

/-- C5 (counterexample): a model whose only face has the degenerate walk
`[0, 0, 1]` constructs NO polygon (the loop has a repeated vertex), yet
vertices 0 and 1 survive pruning: a vertex never referenced by any
constructed polygon is not removed. -/
theorem pruning_keeps_failed_face_verts :
    (processModel optsDefault inpDegenerate 20 modelOneFace).map
      (fun r => (r.polys, r.keptVerts, r.duplicateFaces)) = some ([], [0, 1], 1) ∧
    ([0, 1] : List Nat) ≠ [] := by
  constructor
  · decide
  · decide

/-! ## C7/C8/C10: texture decoder -/

theorem resolveName_nul (name16 : List Nat) (cn : Option String) (nm : String) (j : Nat)
    (h : resolveName name16 cn = some nm)
    (hj : name16.findIdx? (fun b => b == 0) = some j) :
    asciiDecode (name16.take j) = some nm := by
  simp only [resolveName] at h
  rw [hj] at h
  exact h

/-- C7: a miptex entry whose header parses but whose base-mip pixel data
cannot be read yields a placeholder item carrying only the name and
dimensions (`image = none`), without aborting; and the texture loop
continues with the remaining directory entries, the placeholder occupying
this entry's position. -/
theorem corrupt_texture_placeholder (file : List Nat) (colors : List ℚ)
    (mofs : Nat) (curName : Option String) (ofs : Int) (hdrBytes : List Nat) (name : String)
    (rest : List Int)
    (hhdr : readBytesI file ((mofs : Int) + ofs) 40 = some hdrBytes)
    (hname : resolveName (parseMipTex hdrBytes).name16 curName = some name)
    (hpix : readBytesI file ((mofs : Int) + ofs + ((parseMipTex hdrBytes).ofs1 : Int))
      ((parseMipTex hdrBytes).width * (parseMipTex hdrBytes).height) = none) :
    loadOneMiptex file colors true mofs curName ofs =
      some (some name, ⟨name, (parseMipTex hdrBytes).width, (parseMipTex hdrBytes).height,
        none, none, false, false⟩) ∧
    loadTexturesLoop file colors true mofs (ofs :: rest) curName =
      (loadTexturesLoop file colors true mofs rest (some name)).map
        (fun items => (⟨name, (parseMipTex hdrBytes).width, (parseMipTex hdrBytes).height,
          none, none, false, false⟩ : TextureItem) :: items) := by
  have h₁ : loadOneMiptex file colors true mofs curName ofs =
      some (some name, ⟨name, (parseMipTex hdrBytes).width, (parseMipTex hdrBytes).height,
        none, none, false, false⟩) := by
    simp only [loadOneMiptex]
    rw [hhdr]
    dsimp only
    rw [hname]
    dsimp only
    rw [if_neg (by simp)]
    rw [hpix]
  refine ⟨h₁, ?_⟩
  simp only [loadTexturesLoop]
  rw [h₁]
  dsimp only
  cases hrest : loadTexturesLoop file colors true mofs rest (some name) with
  | none => rfl
  | some items => rfl

/-- C7 witness: directory entry 0 of `fileCorrupt` has its pixel data at
offset 9999, past end of file; the theorem applies: the entry yields a
named placeholder with no image and the loop goes on to entry 1. -/
theorem corrupt_texture_placeholder_witness :
    loadOneMiptex fileCorrupt colors768 true 0 none 0 =
      some (some "bad", ⟨"bad", (parseMipTex (fileCorrupt.take 40)).width,
        (parseMipTex (fileCorrupt.take 40)).height, none, none, false, false⟩) ∧
    loadTexturesLoop fileCorrupt colors768 true 0 ((0 : Int) :: [(40 : Int)]) none =
      (loadTexturesLoop fileCorrupt colors768 true 0 [(40 : Int)] (some "bad")).map
        (fun items => (⟨"bad", (parseMipTex (fileCorrupt.take 40)).width,
          (parseMipTex (fileCorrupt.take 40)).height, none, none, false, false⟩ :
            TextureItem) :: items) :=
  corrupt_texture_placeholder fileCorrupt colors768 0 none 0 (fileCorrupt.take 40) "bad"
    [(40 : Int)] (by rfl) (by decide) (by rfl)

/-- C8: the importer crashes on a 16-byte miptex name with no NUL byte —
the name-trim loop of lines 223-226 assigns nothing, so `miptex_name` is
unbound (`NameError`) on the first texture (or silently reuses the previous
texture's name later); decoding does NOT succeed with a defined name. -/
theorem unterminated_name_aborts :
    (parseMipTex ((fileNoNul.drop 132).take 40)).name16.findIdx? (fun b => b == 0) = none ∧
    load_textures fileNoNul colors768 true = none := by
  constructor
  · decide
  · rfl

theorem loadOneMiptex_props (file : List Nat) (colors : List ℚ) (lm : Bool) (mofs : Nat)
    (cn cn' : Option String) (ofs : Int) (item : TextureItem)
    (h : loadOneMiptex file colors lm mofs cn ofs = some (cn', item)) :
    ∃ hdrBytes, readBytesI file ((mofs : Int) + ofs) 40 = some hdrBytes ∧
      item.width = (parseMipTex hdrBytes).width ∧
      item.height = (parseMipTex hdrBytes).height ∧
      cn' = some item.name ∧
      (∀ j, (parseMipTex hdrBytes).name16.findIdx? (fun b => b == 0) = some j →
        asciiDecode ((parseMipTex hdrBytes).name16.take j) = some item.name) := by
  simp only [loadOneMiptex] at h
  cases hhdr : readBytesI file ((mofs : Int) + ofs) 40 with
  | none => rw [hhdr] at h; simp at h
  | some hdrBytes =>
    rw [hhdr] at h
    dsimp only at h
    cases hnm : resolveName (parseMipTex hdrBytes).name16 cn with
    | none => rw [hnm] at h; simp at h
    | some name =>
      rw [hnm] at h
      dsimp only at h
      refine ⟨hdrBytes, rfl, ?_⟩
      by_cases hlm : lm = false
      · rw [if_pos hlm] at h
        obtain ⟨h₁, h₂⟩ := Prod.mk.injEq .. ▸ Option.some.inj h
        subst h₂
        exact ⟨rfl, rfl, h₁.symm ▸ rfl,
          fun j hj => resolveName_nul _ _ _ _ hnm hj⟩
      · rw [if_neg hlm] at h
        cases hpix : readBytesI file ((mofs : Int) + ofs + ((parseMipTex hdrBytes).ofs1 : Int))
            ((parseMipTex hdrBytes).width * (parseMipTex hdrBytes).height) with
        | none =>
          rw [hpix] at h
          obtain ⟨h₁, h₂⟩ := Prod.mk.injEq .. ▸ Option.some.inj h
          subst h₂
          exact ⟨rfl, rfl, h₁.symm ▸ rfl,
            fun j hj => resolveName_nul _ _ _ _ hnm hj⟩
        | some pixels_pal =>
          rw [hpix] at h
          dsimp only at h
          cases hdec : decodePixels colors pixels_pal (parseMipTex hdrBytes).width
              (parseMipTex hdrBytes).height
              (!(pyStartsWith name liquid_marker || pyStartsWith name sky_marker) &&
                !(ignored_texnames.contains name))
              (pyStartsWith name transparent_marker) with
          | none => rw [hdec] at h; simp at h
          | some pr =>
            rw [hdec] at h
            dsimp only at h
            obtain ⟨h₁, h₂⟩ := Prod.mk.injEq .. ▸ Option.some.inj h
            have hw : item.width = (parseMipTex hdrBytes).width := by
              rw [← h₂]
              by_cases hfb : 0 < pr.2.length <;> simp [hfb]
            have hh : item.height = (parseMipTex hdrBytes).height := by
              rw [← h₂]
              by_cases hfb : 0 < pr.2.length <;> simp [hfb]
            have hn : item.name = name := by
              rw [← h₂]
              by_cases hfb : 0 < pr.2.length <;> simp [hfb]
            exact ⟨hw, hh, by rw [hn]; exact h₁.symm,
              fun j hj => by rw [hn]; exact resolveName_nul _ _ _ _ hnm hj⟩

theorem loadTexturesLoop_props (file : List Nat) (colors : List ℚ) (lm : Bool) (mofs : Nat) :
    ∀ (lst : List Int) (cn : Option String) (items : List TextureItem),
    loadTexturesLoop file colors lm mofs lst cn = some items →
    items.length = lst.length ∧
    ∀ i ofs, lst.get? i = some ofs → ∃ cn₀ cn₁ item,
      items.get? i = some item ∧
      loadOneMiptex file colors lm mofs cn₀ ofs = some (cn₁, item) := by
  intro lst
  induction lst with
  | nil =>
    intro cn items h
    simp [loadTexturesLoop] at h
    subst h
    exact ⟨rfl, fun i ofs hofs => by simp at hofs⟩
  | cons a rest ih =>
    intro cn items h
    simp only [loadTexturesLoop] at h
    cases hone : loadOneMiptex file colors lm mofs cn a with
    | none => rw [hone] at h; simp at h
    | some pr =>
      rw [hone] at h
      dsimp only at h
      cases hloop : loadTexturesLoop file colors lm mofs rest pr.1 with
      | none =>
        rw [← hloop] at h
        cases hloop2 : loadTexturesLoop file colors lm mofs rest pr.1 with
        | none => rw [hloop2] at h; simp at h
        | some l2 => rw [hloop2] at hloop; simp at hloop
      | some restItems =>
        rw [hloop] at h
        dsimp only at h
        obtain ⟨hlen, hidx⟩ := ih pr.1 restItems hloop
        have hitems : items = pr.2 :: restItems := (Option.some.inj h).symm
        subst hitems
        refine ⟨by simp [hlen], ?_⟩
        intro i ofs hofs
        cases i with
        | zero =>
          simp at hofs
          subst hofs
          exact ⟨cn, pr.1, pr.2, by simp, by rw [← hone]⟩
        | succ i =>
          simp at hofs
          obtain ⟨cn₀, cn₁, item, hit, hld⟩ := hidx i ofs (by simpa using hofs)
          exact ⟨cn₀, cn₁, item, by simpa using hit, hld⟩

/-- C10: whenever `load_textures` returns, its list has exactly one entry
per miptex directory entry, in directory order: entry `i` of the list is
decoded from directory entry `i` (its width and height are that entry's
header fields, and when the entry's 16-byte name field has a NUL the
entry's name is the NUL-trimmed decode), with placeholders occupying the
positions of corrupt entries. -/
theorem texture_list_positional (file : List Nat) (colors : List ℚ) (lm : Bool)
    (mofs : Nat) (lst : List Int) (items : List TextureItem)
    (hdir : miptexDirectory file = some (mofs, lst))
    (h : load_textures file colors lm = some items) :
    items.length = lst.length ∧
    ∀ i ofs, lst.get? i = some ofs → ∃ item hdrBytes,
      items.get? i = some item ∧
      readBytesI file ((mofs : Int) + ofs) 40 = some hdrBytes ∧
      item.width = (parseMipTex hdrBytes).width ∧
      item.height = (parseMipTex hdrBytes).height ∧
      (∀ j, (parseMipTex hdrBytes).name16.findIdx? (fun b => b == 0) = some j →
        asciiDecode ((parseMipTex hdrBytes).name16.take j) = some item.name) := by
  simp only [load_textures] at h
  rw [hdir] at h
  dsimp only at h
  obtain ⟨hlen, hidx⟩ := loadTexturesLoop_props file colors lm mofs lst none items h
  refine ⟨hlen, ?_⟩
  intro i ofs hofs
  obtain ⟨cn₀, cn₁, item, hit, hld⟩ := hidx i ofs hofs
  obtain ⟨hdrBytes, hhdr, hw, hh, -, hnm⟩ :=
    loadOneMiptex_props file colors lm mofs cn₀ cn₁ ofs item hld
  exact ⟨item, hdrBytes, hit, hhdr, hw, hh, hnm⟩

/-- C10 witness: `fileOneTex` has a one-entry miptex directory; the theorem
applies and the returned one-element list carries that entry's name and
dimensions. -/
theorem texture_list_positional_witness :
    (((load_textures fileOneTex colors768 true).getD []).length = [(8 : Int)].length ∧
      ∀ i ofs, [(8 : Int)].get? i = some ofs → ∃ item hdrBytes,
        ((load_textures fileOneTex colors768 true).getD []).get? i = some item ∧
        readBytesI fileOneTex ((124 : Int) + ofs) 40 = some hdrBytes ∧
        item.width = (parseMipTex hdrBytes).width ∧
        item.height = (parseMipTex hdrBytes).height ∧
        (∀ j, (parseMipTex hdrBytes).name16.findIdx? (fun b => b == 0) = some j →
          asciiDecode ((parseMipTex hdrBytes).name16.take j) = some item.name)) ∧
    ((load_textures fileOneTex colors768 true).getD []).map
      (fun t => (t.name, t.width, t.height, t.mask.isNone, t.is_emissive, t.use_alpha)) =
      [("ok", 1, 1, true, false, false)] :=
  ⟨texture_list_positional fileOneTex colors768 true 124 [(8 : Int)] _ (by rfl) (by rfl),
   by decide⟩

end BSPImporter
